import Mathlib

/-!
Shallow embedding of the AT-ST solution-evaluation pipeline.

The embedding follows the Rust sources of the repository:
  * `src/lib.rs`    — `Solution`, `Test`, `TestCasesRequirement`, `AtstError`, `run`
  * `src/modules.rs`— `Compiler`, `TestExec` (incl. `match_output`), `ScriptExec`
  * `src/analyses.rs` — `NoCallAnalyser`

Rust strings are modelled as lists of characters (`RStr`).  `f64` scores are
modelled by the rationals `ℚ`: every score constant appearing in the sources
(test scores, the `0.5` warning penalty, log-file numbers) is exactly
representable, and the claims under consideration only concern which exact
value is added or subtracted, never rounding.  External effects (process spawning,
exit statuses, captured pipes, the filesystem) are passed in explicitly as
environment data, mirroring exactly the information the Rust code inspects.
-/

/-- Error type of the tool (`AtstError` in `src/lib.rs`).  The payloads of the
config and io variants are reduced to plain data since the claims never
inspect them. -/
inductive AtstError where
  | execError : String → AtstError
  | internalError : String → AtstError
  | solutionExecErr : AtstError
deriving DecidableEq

/-- Rust strings are modelled as lists of characters. -/
abbrev RStr := List Char

/-- Model of Rust `str::trim`: drop whitespace from both ends. -/
def trimStr (s : RStr) : RStr :=
  ((s.dropWhile Char.isWhitespace).reverse.dropWhile Char.isWhitespace).reverse

/-- Model of Rust `str::to_lowercase` (character-wise case folding). -/
def lowerStr (s : RStr) : RStr := s.map Char.toLower

/-- Test case as used by `src/modules.rs` (`TestExec::execute` and
`match_output` read the fields `args`, `stdin`, `stdout`, `stderr` and
`case_insensitive`). -/
structure TestCase where
  args : List RStr
  stdin : Option RStr
  stdout : Option RStr
  stderr : Option RStr
  case_insensitive : Bool
deriving DecidableEq

/-- Requirement on the test cases of a `Test` (`src/lib.rs`). -/
inductive TestCasesRequirement where
  | ALL
  | ANY
deriving DecidableEq

/-- A scored test (`Test` in `src/lib.rs`). -/
structure Test where
  name : String
  score : ℚ
  test_cases : List TestCase
  requirement : TestCasesRequirement

/-- Embedding of `match_output` from `src/modules.rs` (lines 234-262).
The first argument is the content readable from the captured stream
(`None` models an unobtainable stream handle, in which case the Rust code
returns `AtstError::InternalError`). -/
def match_output (stream : Option RStr) (expected : Option RStr)
    (case_insensitive : Bool) : Except AtstError Bool :=
  match expected with
  | some expected_output =>
    match stream with
    | none => .error (.internalError "error getting output of a solution program")
    | some raw =>
      let output := trimStr raw
      let exp := trimStr expected_output
      let output := if case_insensitive then lowerStr output else output
      let exp := if case_insensitive then lowerStr exp else exp
      .ok (if exp = ['*'] then !output.isEmpty else exp == output)
  | none => .ok true

/-- Observable outcome of running one test-case process
(`TestExec::execute`, lines 180-205 of `src/modules.rs`): whether
`wait_timeout` expired (so the child was killed and reaped) and the contents
captured on the stdout and stderr pipes.  The exit status is discarded by the
Rust code (`let _ = match ...`), so it is not part of the outcome. -/
structure CaseOutcome where
  timedOut : Bool
  stdout : Option RStr
  stderr : Option RStr
deriving DecidableEq

/-- Embedding of the per-case pass decision of `TestExec::execute`
(lines 207-217 of `src/modules.rs`): the case counts as passed iff
`match_output` accepts stdout and — short-circuited by `&&` — stderr. -/
def execCase (tc : TestCase) (oc : CaseOutcome) : Except AtstError Bool :=
  match match_output oc.stdout tc.stdout tc.case_insensitive with
  | .error e => .error e
  | .ok stdout_ok =>
    if stdout_ok then match_output oc.stderr tc.stderr tc.case_insensitive
    else .ok false

/-- Embedding of the `for test_case in &test.test_cases` loop of
`TestExec::execute`: `env` supplies the process outcome of the case at each
position, `cases_passed` is the running counter. -/
def execCases (env : Nat → CaseOutcome) (idx : Nat) (cases : List TestCase)
    (cases_passed : Nat) : Except AtstError Nat :=
  match cases with
  | [] => .ok cases_passed
  | c :: rest =>
    match execCase c (env idx) with
    | .error e => .error e
    | .ok passed =>
      execCases env (idx + 1) rest (if passed then cases_passed + 1 else cases_passed)

/-- Embedding of the per-`Test` body of `TestExec::execute`
(lines 177-228 of `src/modules.rs`): run all cases, then award the score in
full when the requirement is fulfilled, otherwise add `0`. -/
def execTest (env : Nat → CaseOutcome) (t : Test) (score : ℚ) :
    Except AtstError ℚ :=
  match execCases env 0 t.test_cases 0 with
  | .error e => .error e
  | .ok cases_passed =>
    let test_passed : Bool :=
      match t.requirement with
      | .ALL => cases_passed == t.test_cases.length
      | .ANY => decide (1 ≤ cases_passed)
    let test_score : ℚ := if test_passed then t.score else 0
    .ok (score + test_score)

/-- Embedding of the loop over all tests of `TestExec::execute`; `envs` gives
the process outcomes of the cases of the test at each position. -/
def execTests (envs : Nat → Nat → CaseOutcome) (idx : Nat) (tests : List Test)
    (score : ℚ) : Except AtstError ℚ :=
  match tests with
  | [] => .ok score
  | t :: rest =>
    match execTest (envs idx) t score with
    | .error e => .error e
    | .ok score' => execTests envs (idx + 1) rest score'

/-- Embedding of the whole `TestExec::execute` module: if the compiled binary
does not exist the stage is a no-op (lines 168-171 of `src/modules.rs`). -/
def testExecModule (binExists : Bool) (envs : Nat → Nat → CaseOutcome)
    (tests : List Test) (score : ℚ) : Except AtstError ℚ :=
  if binExists then execTests envs 0 tests score else .ok score

/-- Per-solution state mutated by the pipeline (`Solution` in `src/lib.rs`);
`name` is the directory file name used as the key of the result map. -/
structure Solution where
  name : String
  score : ℚ
  included : List RStr
  source : RStr
deriving DecidableEq

/-- A pipeline stage (the `Module` trait): `execute` takes the solution state
and either updates it or fails with an `AtstError`. -/
abbrev PipelineModule := Solution → Except AtstError Solution

/-- Embedding of the inner loop `for m in &modules { m.execute(&mut solution)?; }`
of `run` in `src/lib.rs` (lines 171-173): the `?` operator propagates the
first error. -/
def runModules (mods : List PipelineModule) (s : Solution) :
    Except AtstError Solution :=
  match mods with
  | [] => .ok s
  | m :: rest =>
    match m s with
    | .error e => .error e
    | .ok s' => runModules rest s'

/-- Embedding of the per-solution loop of `run` in `src/lib.rs`
(lines 153-178): `srcExists` models the filesystem check
`solution.path.join(&solution.src_file).exists()`; `result` is the
accumulated result map (modelled as an association list, solution directory
names being distinct). -/
def runLoop (srcExists : Solution → Bool) (mods : List PipelineModule)
    (sols : List Solution) (result : List (String × ℚ)) :
    Except AtstError (List (String × ℚ)) :=
  match sols with
  | [] => .ok result
  | s :: rest =>
    if srcExists s then
      match runModules mods s with
      | .error e => .error e
      | .ok s' => runLoop srcExists mods rest (result ++ [(s'.name, s'.score)])
    else runLoop srcExists mods rest result

/-- Exit information of the three compiler invocations made by
`Compiler::execute` (`src/modules.rs`, lines 37-78).  For the first two,
`none` models `Command::status` returning an io error (compiler missing or
unrunnable) and `some b` an exit with success flag `b`.  The third invocation
(`cc.status().unwrap()`) reruns the very same binary that already ran, so only
its success flag is modelled. -/
structure CompilerEnv where
  compileStatus : Option Bool
  linkStatus : Option Bool
  werrorStatus : Bool
deriving DecidableEq

/-- Which build artifacts exist in the solution directory after the compiler
stage.  `Compiler::execute` first removes both; a successful `-c` compilation
creates the object file and a successful link creates the binary (a failing
gcc invocation writes no output file). -/
structure Artifacts where
  objExists : Bool
  binExists : Bool
deriving DecidableEq

/-- Embedding of `Compiler::execute` (`src/modules.rs`, lines 37-78): returns
the updated score together with the artifacts left in the solution
directory. -/
def compilerExecute (compiler : String) (env : CompilerEnv) (score : ℚ) :
    Except AtstError (ℚ × Artifacts) :=
  match env.compileStatus with
  | none => .error (.execError compiler)
  | some false => .ok (score, ⟨false, false⟩)
  | some true =>
    match env.linkStatus with
    | none => .error (.execError compiler)
    | some false => .ok (score, ⟨true, false⟩)
    | some true =>
      if env.werrorStatus then .ok (score, ⟨true, true⟩)
      else .ok (score - 1/2, ⟨true, true⟩)

/-- Helper for the NoCall regex model: does the string start with optional
whitespace followed by an opening parenthesis (the `\s*\(` tail of the
pattern)? -/
def wsThenParen : RStr → Bool
  | [] => false
  | c :: rest => if c = '(' then true else if c.isWhitespace then wsThenParen rest else false

/-- Helper for the NoCall regex model: does the pattern `f\s*\(` match at the
very beginning of the string? -/
def matchHere : RStr → RStr → Bool
  | [], s => wsThenParen s
  | _ :: _, [] => false
  | c :: f, d :: s => c == d && matchHere f s

/-- Helper for the NoCall regex model: unanchored search of the pattern
`f\s*\(` anywhere in the string, as performed by `Regex::is_match`. -/
def searchFrom (f : RStr) : RStr → Bool
  | [] => matchHere f []
  | s@(_ :: rest) => matchHere f s || searchFrom f rest

/-- Embedding of `NoCallAnalyser::analyse` (`src/analyses.rs`, lines 44-57):
the `RegexSet` built from the patterns `f\s*\(` (one per disallowed function
name `f`) matches the preprocessed source iff some pattern matches.  Function
names are taken to be plain identifiers (no regex metacharacters), which is
how the analyser is configured; `\s` is modelled by `Char.isWhitespace`. -/
def noCallAnalyse (funs : List RStr) (source : RStr) : Bool :=
  funs.any fun f => searchFrom f source

/-- Helper of the ScriptExec model: the prefix of a log line up to (not
including) the first colon, i.e. `line.split(':').nth(0).unwrap_or_default()`
of `src/modules.rs` line 317.  `split` always yields at least one piece, the
part before the first separator — the whole line when no separator occurs. -/
def preColon (line : RStr) : RStr := line.takeWhile fun c => c ≠ ':'

/-- Embedding of the log-file loop of `ScriptExec::execute`
(`src/modules.rs`, lines 314-321): for every line whose pre-colon prefix
parses as a number, add it to the score; other lines are skipped.  `parse`
models `str::parse::<f64>` and is kept abstract (the claims do not depend on
the float grammar). -/
def scriptLines (parse : RStr → Option ℚ) (ls : List RStr) (score : ℚ) : ℚ :=
  ls.foldl (fun s l =>
    match parse (preColon l) with
    | some n => s + n
    | none => s) score

/-- Embedding of `ScriptExec::execute` (`src/modules.rs`, lines 304-323):
`launchOk` models whether the script could be spawned at all (`map_err` to
`ExecError` otherwise); `logLines` is the content of the optional log file
(`read_to_string(..).unwrap_or_default()` turns a missing file into no
lines). -/
def scriptExecute (parse : RStr → Option ℚ) (launchOk : Bool)
    (script_path : String) (logLines : Option (List RStr)) (score : ℚ) :
    Except AtstError ℚ :=
  if launchOk then .ok (scriptLines parse (logLines.getD []) score)
  else .error (.execError script_path)


/-! Helper lemmas about the string model. -/

/-- Lower-casing a string preserves emptiness. -/
lemma isEmpty_lowerStr (s : RStr) : (lowerStr s).isEmpty = s.isEmpty := by
  cases s <;> rfl

/-- Character-level fact: nothing but the asterisk case-folds to the
asterisk. -/
lemma toLower_eq_star_iff (c : Char) : c.toLower = '*' ↔ c = '*' := by
  constructor
  · intro h
    have h' : (if c.toNat ≥ 65 ∧ c.toNat ≤ 90 then Char.ofNat (c.toNat + 32) else c) = '*' := h
    split at h'
    · next hr =>
      exfalso
      have hv : (c.toNat + 32).isValidChar := Or.inl (by omega)
      have ht : (Char.ofNat (c.toNat + 32)).toNat = c.toNat + 32 := by
        rw [Char.ofNat, dif_pos hv]
        rfl
      rw [h'] at ht
      have h42 : ('*' : Char).toNat = 42 := rfl
      omega
    · exact h'
  · intro h
    subst h
    rfl

/-- String-level fact: a string case-folds to the one-character string of an
asterisk only if it already is that string. -/
lemma lowerStr_eq_star_iff (s : RStr) : lowerStr s = ['*'] ↔ s = ['*'] := by
  cases s with
  | nil => simp [lowerStr]
  | cons c rest =>
    cases rest with
    | nil => simp [lowerStr, toLower_eq_star_iff]
    | cons d rest' => simp [lowerStr]

/-! Development for claim C1: matching contract of one expectation field. -/

/-- Matching contract of one expectation field exactly as the claim words it:
the wildcard rule fires when the expectation is the literal string of a
single asterisk (before any trimming). -/
def claimC1FieldMatches (actual : RStr) (expected : Option RStr) (ci : Bool) : Bool :=
  match expected with
  | none => true
  | some e =>
    if e = ['*'] then !(trimStr actual).isEmpty
    else if ci then lowerStr (trimStr e) == lowerStr (trimStr actual)
    else trimStr e == trimStr actual

/-- Matching contract of one expectation field as the code realizes it: the
wildcard rule fires when the expectation is a single asterisk after trimming
(case folding cannot produce or destroy an asterisk). -/
def fieldMatchesSpec (actual : RStr) (expected : Option RStr) (ci : Bool) : Bool :=
  match expected with
  | none => true
  | some e =>
    if trimStr e = ['*'] then !(trimStr actual).isEmpty
    else if ci then lowerStr (trimStr e) == lowerStr (trimStr actual)
    else trimStr e == trimStr actual

/-- Key equivalence: `match_output` on an available stream decides exactly the
field-matching contract `fieldMatchesSpec`. -/
lemma match_output_eq_spec (actual : RStr) (expected : Option RStr) (ci : Bool) :
    match_output (some actual) expected ci = .ok (fieldMatchesSpec actual expected ci) := by
  cases expected with
  | none => rfl
  | some e =>
    cases ci with
    | false => rfl
    | true =>
      show Except.ok (if lowerStr (trimStr e) = ['*'] then !(lowerStr (trimStr actual)).isEmpty
        else lowerStr (trimStr e) == lowerStr (trimStr actual)) = _
      by_cases h : trimStr e = ['*']
      · have h' : lowerStr (trimStr e) = ['*'] := by rw [h]; rfl
        simp [fieldMatchesSpec, h, h', isEmpty_lowerStr, show lowerStr ['*'] = ['*'] from rfl]
      · have h' : ¬ lowerStr (trimStr e) = ['*'] := fun hh => h ((lowerStr_eq_star_iff _).mp hh)
        simp [fieldMatchesSpec, h, h']

/-- Claim C1 as stated is refuted by an expectation that trims to an asterisk
without being the literal asterisk string: on actual output `"x"` with
expected `" * "` the code applies the wildcard rule and accepts, while the
claim's contract demands equality of the trimmed strings and rejects. -/
theorem c1_counterexample :
    match_output (some ['x']) (some [' ', '*', ' ']) false = .ok true ∧
    claimC1FieldMatches ['x'] (some [' ', '*', ' ']) false = false := by
  constructor
  · rfl
  · rfl

/-- Claim C1, amended: the wildcard rule fires iff the expectation trims to
`"*"`; otherwise trimmed (and, with the flag, case-folded) equality decides
the field, an absent expectation always matches, and a case passes iff both
declared expectation fields match the captured streams. -/
theorem c1_matching_contract :
    (∀ (actual : RStr) (expected : Option RStr) (ci : Bool),
        match_output (some actual) expected ci = .ok (fieldMatchesSpec actual expected ci)) ∧
    (∀ (tc : TestCase) (timedOut : Bool) (out err : RStr),
        execCase tc ⟨timedOut, some out, some err⟩ =
          .ok (fieldMatchesSpec out tc.stdout tc.case_insensitive &&
               fieldMatchesSpec err tc.stderr tc.case_insensitive)) := by
  refine ⟨match_output_eq_spec, ?_⟩
  intro tc timedOut out err
  show (match match_output (some out) tc.stdout tc.case_insensitive with
    | Except.error e => Except.error e
    | Except.ok stdout_ok =>
      if stdout_ok then match_output (some err) tc.stderr tc.case_insensitive
      else Except.ok false) = _
  rw [match_output_eq_spec, match_output_eq_spec]
  cases hA : fieldMatchesSpec out tc.stdout tc.case_insensitive
  · rfl
  · rfl

/-! Development for claim C3: timeout handling in the test executor. -/

/-- Claim C3 as stated is refuted: a process that hit the timeout (it was
killed and reaped, `timedOut = true`) can still pass its case.  Here the
program printed `h` before hanging and the case expects stdout `h`, so the
captured output matches and the case passes. -/
theorem c3_counterexample :
    (⟨true, some ['h'], some []⟩ : CaseOutcome).timedOut = true ∧
    execCase ⟨[], none, some ['h'], none, false⟩ ⟨true, some ['h'], some []⟩ = .ok true := by
  constructor
  · rfl
  · rfl

/-- Claim C3, amended: on timeout the child is killed and reaped (so the run
does not hang), but the case is not thereby recorded as failed — whether the
timeout fired is irrelevant to scoring, and the case passes iff both
expectation fields match the captured streams. -/
theorem c3_timeout_scoring :
    ∀ (tc : TestCase) (oc : CaseOutcome),
      execCase tc oc = execCase tc ⟨false, oc.stdout, oc.stderr⟩ ∧
      (execCase tc oc = .ok true ↔
        match_output oc.stdout tc.stdout tc.case_insensitive = .ok true ∧
        match_output oc.stderr tc.stderr tc.case_insensitive = .ok true) := by
  intro tc oc
  refine ⟨rfl, ?_⟩
  unfold execCase
  cases h : match_output oc.stdout tc.stdout tc.case_insensitive with
  | error e => simp
  | ok b =>
    cases b with
    | true => simp
    | false => simp

/-! Development for claims C2 and C9: score aggregation per `Test`. -/

/-- Claim C2: a `Test` either adds its full score or adds nothing; the full
score is added exactly when the requirement is fulfilled by the number of
passed cases (`ALL`: all cases passed, `ANY`: at least one). -/
theorem c2_score_all_or_nothing :
    ∀ (env : Nat → CaseOutcome) (t : Test) (score : ℚ) (n : Nat),
      execCases env 0 t.test_cases 0 = .ok n →
      (execTest env t score = .ok (score + t.score) ∨
       execTest env t score = .ok score) ∧
      execTest env t score = .ok (score +
        match t.requirement with
        | .ALL => if n = t.test_cases.length then t.score else 0
        | .ANY => if 1 ≤ n then t.score else 0) := by
  intro env t score n h
  have he : execTest env t score = .ok (score +
      if (match t.requirement with
        | TestCasesRequirement.ALL => n == t.test_cases.length
        | TestCasesRequirement.ANY => decide (1 ≤ n)) then t.score else 0) := by
    unfold execTest
    rw [h]
  constructor
  · cases hb : (match t.requirement with
      | TestCasesRequirement.ALL => n == t.test_cases.length
      | TestCasesRequirement.ANY => decide (1 ≤ n)) with
    | true =>
      left
      rw [he, hb]
      simp
    | false =>
      right
      rw [he, hb]
      simp
  · rw [he]
    cases t.requirement with
    | ALL => by_cases hn : n = t.test_cases.length <;> simp [hn]
    | ANY => by_cases hn : 1 ≤ n <;> simp [hn]

/-- Witness for claim C2 at a concrete input: one test case with no declared
expectations passes, so a one-case `ALL` test with score `1` adds exactly its
full score. -/
theorem c2_witness :
    execCases (fun _ => ⟨false, some [], some []⟩) 0 [⟨[], none, none, none, false⟩] 0 = .ok 1 ∧
    (execTest (fun _ => ⟨false, some [], some []⟩)
        ⟨"t", 1, [⟨[], none, none, none, false⟩], .ALL⟩ 0 = .ok (0 + 1) ∨
     execTest (fun _ => ⟨false, some [], some []⟩)
        ⟨"t", 1, [⟨[], none, none, none, false⟩], .ALL⟩ 0 = .ok 0) := by
  exact ⟨rfl, (c2_score_all_or_nothing (fun _ => ⟨false, some [], some []⟩)
    ⟨"t", 1, [⟨[], none, none, none, false⟩], .ALL⟩ 0 1 rfl).1⟩

/-- Claim C9: with an empty case list, `ALL` is vacuously fulfilled (zero
passed equals zero total) and the full score is awarded, while `ANY` is not
and the score is unchanged. -/
theorem c9_empty_test_cases :
    ∀ (env : Nat → CaseOutcome) (nm : String) (s base : ℚ),
      execTest env ⟨nm, s, [], .ALL⟩ base = .ok (base + s) ∧
      execTest env ⟨nm, s, [], .ANY⟩ base = .ok base := by
  intro env nm s base
  constructor
  · rfl
  · show Except.ok (base + 0) = Except.ok base
    rw [add_zero]

/-! Development for claims C4 and C5: the pipeline driver. -/

/-- Claim C4: a module error aborts everything.  First conjunct: within one
solution, the first failing module's error is the result of the whole module
sequence.  Second conjunct: when the module sequence fails on the solution
currently being processed, `run` returns exactly that error — the remaining
solutions are not processed and the scores accumulated so far (`acc`) are not
returned. -/
theorem c4_fail_fast :
    (∀ (m : PipelineModule) (ms : List PipelineModule) (s : Solution) (e : AtstError),
        m s = .error e → runModules (m :: ms) s = .error e) ∧
    (∀ (srcE : Solution → Bool) (mods : List PipelineModule) (s : Solution)
        (rest : List Solution) (acc : List (String × ℚ)) (e : AtstError),
        srcE s = true → runModules mods s = .error e →
        runLoop srcE mods (s :: rest) acc = .error e) := by
  constructor
  · intro m ms s e h
    unfold runModules
    rw [h]
  · intro srcE mods s rest acc e hsrc hmod
    show (if srcE s = true then
        match runModules mods s with
        | Except.error e => Except.error e
        | Except.ok s' => runLoop srcE mods rest (acc ++ [(s'.name, s'.score)])
      else runLoop srcE mods rest acc) = Except.error e
    rw [hsrc, hmod]
    simp

/-- Witness for claim C4 at a concrete input: a single module failing with a
missing-compiler error aborts the run and discards the accumulated score of
an earlier solution. -/
theorem c4_witness :
    ((fun (_ : Solution) => true) ⟨"x01", 0, [], []⟩ = true) ∧
    runModules [fun _ => .error (.execError "gcc")] ⟨"x01", 0, [], []⟩ =
      .error (.execError "gcc") ∧
    runLoop (fun _ => true) [fun _ => .error (.execError "gcc")]
      [⟨"x01", 0, [], []⟩] [("x00", 1)] = .error (.execError "gcc") := by
  refine ⟨rfl, rfl, ?_⟩
  exact c4_fail_fast.2 (fun _ => true) [fun _ => .error (.execError "gcc")]
    ⟨"x01", 0, [], []⟩ [] [("x00", 1)] (.execError "gcc") rfl rfl

/-- Claim C5: a solution whose source file is absent is skipped — no module
runs on it, nothing is recorded for it, no error is raised, and the run
continues exactly as if the solution were not in the batch. -/
theorem c5_skip_missing_source :
    ∀ (srcE : Solution → Bool) (mods : List PipelineModule) (s : Solution)
      (rest : List Solution) (acc : List (String × ℚ)),
      srcE s = false →
      runLoop srcE mods (s :: rest) acc = runLoop srcE mods rest acc := by
  intro srcE mods s rest acc h
  show (if srcE s = true then
      match runModules mods s with
      | Except.error e => Except.error e
      | Except.ok s' => runLoop srcE mods rest (acc ++ [(s'.name, s'.score)])
    else runLoop srcE mods rest acc) = runLoop srcE mods rest acc
  rw [h]
  simp

/-- Witness for claim C5 at a concrete input: the skipped solution leaves the
result of the run untouched. -/
theorem c5_witness :
    ((fun (_ : Solution) => false) ⟨"x02", 0, [], []⟩ = false) ∧
    runLoop (fun _ => false) [] [⟨"x02", 0, [], []⟩] [("x00", 1)] =
      runLoop (fun _ => false) [] [] [("x00", 1)] := by
  exact ⟨rfl, c5_skip_missing_source (fun _ => false) [] ⟨"x02", 0, [], []⟩ [] [("x00", 1)] rfl⟩

/-! Development for claims C6 and C7: the compiler stage. -/

/-- Claim C6 as stated is refuted on the link-failure path: when compilation
succeeds and linking fails, the stage returns Ok with the score unchanged,
but the object file produced by the successful compilation is left behind —
so it is not true that no object/binary artifacts remain. -/
theorem c6_counterexample :
    compilerExecute "gcc" ⟨some true, some false, true⟩ 0 = .ok (0, ⟨true, false⟩) ∧
    (⟨true, false⟩ : Artifacts).objExists = true := by
  constructor
  · rfl
  · rfl

/-- Claim C6, amended: a missing or unrunnable compiler is a reportable
`ExecError` (at the compile step and likewise at the link step); a failing
compilation returns Ok with the score unchanged and leaves no artifacts; a
failing link returns Ok with the score unchanged and leaves the object file
(but no binary) behind. -/
theorem c6_compiler_failure_taxonomy :
    ∀ (cc : String) (env : CompilerEnv) (score : ℚ),
      (env.compileStatus = none →
        compilerExecute cc env score = .error (.execError cc)) ∧
      (env.compileStatus = some true → env.linkStatus = none →
        compilerExecute cc env score = .error (.execError cc)) ∧
      (env.compileStatus = some false →
        compilerExecute cc env score = .ok (score, ⟨false, false⟩)) ∧
      (env.compileStatus = some true → env.linkStatus = some false →
        compilerExecute cc env score = .ok (score, ⟨true, false⟩)) := by
  intro cc env score
  refine ⟨?_, ?_, ?_, ?_⟩
  · intro h
    unfold compilerExecute
    rw [h]
  · intro h1 h2
    unfold compilerExecute
    rw [h1, h2]
  · intro h
    unfold compilerExecute
    rw [h]
  · intro h1 h2
    unfold compilerExecute
    rw [h1, h2]

/-- Witness for claim C6 at a concrete input: compilation fails (exit status
unsuccessful), the stage returns Ok, the score is unchanged and no artifacts
exist. -/
theorem c6_witness :
    ((⟨some false, none, true⟩ : CompilerEnv).compileStatus = some false) ∧
    compilerExecute "gcc" ⟨some false, none, true⟩ 3 = .ok (3, ⟨false, false⟩) := by
  exact ⟨rfl, (c6_compiler_failure_taxonomy "gcc" ⟨some false, none, true⟩ 3).2.2.1 rfl⟩

/-- Claim C7: when compilation and linking both succeed, the extra `-Werror`
recompilation decides the outcome — if it fails exactly `0.5` is subtracted
from the score, if it succeeds the score is unchanged; in both cases the
object file and the binary from the successful build remain. -/
theorem c7_warning_penalty :
    ∀ (cc : String) (env : CompilerEnv) (score : ℚ),
      env.compileStatus = some true → env.linkStatus = some true →
      compilerExecute cc env score =
        .ok ((if env.werrorStatus then score else score - 1/2), ⟨true, true⟩) := by
  intro cc env score h1 h2
  unfold compilerExecute
  rw [h1, h2]
  cases hw : env.werrorStatus with
  | true => simp
  | false => simp

/-- Witness for claim C7 at a concrete input: with warnings present (the
`-Werror` recompilation fails) a score of `2` becomes `3/2`, and both
artifacts remain. -/
theorem c7_witness :
    ((⟨some true, some true, false⟩ : CompilerEnv).compileStatus = some true) ∧
    compilerExecute "gcc" ⟨some true, some true, false⟩ 2 = .ok (3/2, ⟨true, true⟩) := by
  refine ⟨rfl, ?_⟩
  rw [c7_warning_penalty "gcc" ⟨some true, some true, false⟩ 2 rfl rfl]
  norm_num

/-! Development for claim C8: the NoCall analyser's matching. -/

/-- Characterization of the tail helper: some prefix of whitespace is
followed by an opening parenthesis. -/
lemma wsThenParen_iff (s : RStr) :
    wsThenParen s = true ↔
      ∃ ws rest, s = ws ++ '(' :: rest ∧ ∀ x ∈ ws, x.isWhitespace = true := by
  induction s with
  | nil =>
    constructor
    · intro h
      simp [wsThenParen] at h
    · rintro ⟨ws, rest, h, -⟩
      exact absurd h (by simp)
  | cons c cs ih =>
    by_cases hc : c = '('
    · subst hc
      constructor
      · intro _
        exact ⟨[], cs, rfl, by simp⟩
      · intro _
        simp [wsThenParen]
    · by_cases hw : c.isWhitespace = true
      · have hval : wsThenParen (c :: cs) = wsThenParen cs := by
          simp [wsThenParen, hc, hw]
        rw [hval, ih]
        constructor
        · rintro ⟨ws, rest, rfl, hws⟩
          refine ⟨c :: ws, rest, rfl, ?_⟩
          intro x hx
          rcases List.mem_cons.mp hx with hx | hx
          · rw [hx]; exact hw
          · exact hws x hx
        · rintro ⟨ws, rest, heq, hws⟩
          cases ws with
          | nil =>
            injection heq with h1 _
            exact absurd h1 hc
          | cons w ws' =>
            injection heq with h1 h2
            subst h1
            exact ⟨ws', rest, h2, fun x hx => hws x (List.mem_cons_of_mem _ hx)⟩
      · have hval : wsThenParen (c :: cs) = false := by
          simp [wsThenParen, hc, hw]
        rw [hval]
        constructor
        · intro h
          cases h
        · rintro ⟨ws, rest, heq, hws⟩
          cases ws with
          | nil =>
            injection heq with h1 _
            exact absurd h1 hc
          | cons w ws' =>
            injection heq with h1 h2
            subst h1
            exact absurd (hws c (by simp)) (by simpa using hw)

lemma matchHere_iff (f s : RStr) :
    matchHere f s = true ↔
      ∃ ws rest, s = f ++ ws ++ '(' :: rest ∧ ∀ x ∈ ws, x.isWhitespace = true := by
  induction f generalizing s with
  | nil =>
    simpa using wsThenParen_iff s
  | cons c f' ih =>
    cases s with
    | nil =>
      constructor
      · intro h
        simp [matchHere] at h
      · rintro ⟨ws, rest, heq, -⟩
        exact absurd heq (by simp)
    | cons d s' =>
      have hval : matchHere (c :: f') (d :: s') = ((c == d) && matchHere f' s') := rfl
      rw [hval]
      by_cases hcd : c = d
      · subst hcd
        simp only [beq_self_eq_true, Bool.true_and]
        rw [ih]
        constructor
        · rintro ⟨ws, rest, rfl, hws⟩
          exact ⟨ws, rest, rfl, hws⟩
        · rintro ⟨ws, rest, heq, hws⟩
          injection heq with _ h2
          exact ⟨ws, rest, h2, hws⟩
      · constructor
        · intro h
          rw [show (c == d) = false by simpa using hcd] at h
          simp at h
        · rintro ⟨ws, rest, heq, -⟩
          injection heq with h1 _
          exact absurd h1.symm hcd

lemma searchFrom_iff (f s : RStr) :
    searchFrom f s = true ↔
      ∃ pre ws rest, s = pre ++ f ++ ws ++ '(' :: rest ∧ ∀ x ∈ ws, x.isWhitespace = true := by
  induction s with
  | nil =>
    rw [show searchFrom f [] = matchHere f [] from rfl, matchHere_iff]
    constructor
    · rintro ⟨ws, rest, heq, hws⟩
      exact ⟨[], ws, rest, by simpa using heq, hws⟩
    · rintro ⟨pre, ws, rest, heq, hws⟩
      have hpre : pre = [] := by
        cases pre with
        | nil => rfl
        | cons p ps => exact absurd heq (by simp)
      subst hpre
      exact ⟨ws, rest, by simpa using heq, hws⟩
  | cons d s' ih =>
    have hval : searchFrom f (d :: s') = (matchHere f (d :: s') || searchFrom f s') := rfl
    rw [hval, Bool.or_eq_true, matchHere_iff, ih]
    constructor
    · rintro (⟨ws, rest, heq, hws⟩ | ⟨pre, ws, rest, heq, hws⟩)
      · exact ⟨[], ws, rest, by simpa using heq, hws⟩
      · refine ⟨d :: pre, ws, rest, ?_, hws⟩
        rw [heq]
        simp
    · rintro ⟨pre, ws, rest, heq, hws⟩
      cases pre with
      | nil =>
        left
        exact ⟨ws, rest, by simpa using heq, hws⟩
      | cons p ps =>
        right
        injection heq with h1 h2
        subst h1
        exact ⟨ps, ws, rest, h2, hws⟩

/-- Claim C8 as stated is refuted: the pattern `foo\s*\(` has no left word
boundary, so the source `xfoo()` — where `foo` occurs only as a proper
suffix of the identifier `xfoo` adjacent to the parenthesis — is matched by
disallowed name `foo`, contrary to the claim's word-boundary-correctness. -/
theorem c8_counterexample :
    noCallAnalyse ["foo".toList] ("xfoo()".toList) = true := by decide

/-- Claim C8, amended: the analyser reports a match iff some disallowed name
occurs in the source followed by optional whitespace and an opening
parenthesis.  This is boundary-correct on the right (`foobar(` does not match
`foo` because `b` is neither whitespace nor a parenthesis) but unanchored on
the left (`xfoo(` does match `foo`); `foo(` matches as the claim states. -/
theorem c8_no_call_matching :
    (∀ (funs : List RStr) (source : RStr),
        noCallAnalyse funs source = true ↔
          ∃ f ∈ funs, ∃ pre ws rest,
            source = pre ++ f ++ ws ++ '(' :: rest ∧
            ∀ x ∈ ws, x.isWhitespace = true) ∧
    noCallAnalyse ["foo".toList] ("foo()".toList) = true ∧
    noCallAnalyse ["foo".toList] ("foobar()".toList) = false ∧
    noCallAnalyse ["foo".toList] ("xfoo()".toList) = true := by
  refine ⟨?_, by decide, by decide, by decide⟩
  intro funs source
  rw [show noCallAnalyse funs source = funs.any (fun f => searchFrom f source) from rfl,
    List.any_eq_true]
  constructor
  · rintro ⟨f, hf, hsearch⟩
    exact ⟨f, hf, (searchFrom_iff f source).mp hsearch⟩
  · rintro ⟨f, hf, hwit⟩
    exact ⟨f, hf, (searchFrom_iff f source).mpr hwit⟩

/-! Development for claim C10: the script stage's log-file parsing. -/

/-- Claim C10: the pre-colon prefix of a colonless line is the whole line
(so such a line contributes whenever the entire line parses as a number), a
line whose prefix does not parse is skipped without changing the score, and
a successfully launched script never yields an error from log parsing. -/
theorem c10_script_log_lines :
    ∀ (parse : RStr → Option ℚ) (l : RStr) (ls : List RStr) (score : ℚ)
      (path : String) (log : Option (List RStr)),
      (l.contains ':' = false → preColon l = l) ∧
      (parse (preColon l) = none →
        scriptLines parse (l :: ls) score = scriptLines parse ls score) ∧
      scriptExecute parse true path log score =
        .ok (scriptLines parse (log.getD []) score) := by
  intro parse l ls score path log
  refine ⟨?_, ?_, rfl⟩
  · intro h
    unfold preColon
    rw [List.takeWhile_eq_self_iff]
    intro c hc
    by_contra hne
    have hcc : c = ':' := by
      by_contra hx
      exact hne (by simpa using hx)
    subst hcc
    have : l.contains ':' = true := List.elem_eq_true_of_mem hc
    rw [h] at this
    cases this
  · intro h
    show scriptLines parse ls (match parse (preColon l) with
      | some n => score + n
      | none => score) = scriptLines parse ls score
    rw [h]

/-- Witness for claim C10 at a concrete input: the colonless line `1` is its
own prefix, and with a parser rejecting it the line is skipped silently. -/
theorem c10_witness :
    (['1'].contains ':' = false ∧
     (fun (_ : RStr) => (none : Option ℚ)) (preColon ['1']) = none) ∧
    preColon ['1'] = ['1'] ∧
    scriptLines (fun _ => none) [['1']] 0 = scriptLines (fun _ => none) [] 0 := by
  refine ⟨⟨by decide, rfl⟩, ?_, ?_⟩
  · exact (c10_script_log_lines (fun _ => none) ['1'] [] 0 "s" none).1 (by decide)
  · exact (c10_script_log_lines (fun _ => none) ['1'] [] 0 "s" none).2.1 rfl
